import Mathlib

/-!
Shallow embedding of the ZerodhaWise analytics engine
(src/performance.py, src/risk.py) over exact rational arithmetic.

Modelling conventions:
* Python/pandas floats are modelled as rationals; a non-finite float
  (NaN or +-Inf, e.g. a pandas missing value or a numpy division by
  zero) is modelled as `none` in `Option`.  `dropna` is `reduceOption`.
* A pandas DataFrame with a `total_value` column and a possibly absent
  `daily_return` column is the structure `Frame`; in-place column
  assignment is modelled by state passing: the performance entry points
  return the resulting frame alongside their result.
* Python dict results with an `error` key are `Except.error`.
* A Python `ZeroDivisionError` (float division by exact zero) is an
  `Except.error` carrying the exception text.
* `scipy.stats.norm.ppf` is an external numeric routine; the risk-engine
  definitions take it as an explicit parameter `ppf`.
* Quantities that the source obtains via `math.sqrt`/`numpy.sqrt`
  (annualised volatility, Sharpe ratio, skewness) live in `ℝ` via
  `Real.sqrt`; everything else is computable over `ℚ`.
-/

namespace ZerodhaWise

/-- Mean of a list of rationals (`Series.mean`); the empty case is never
reached on the paths the source exercises it. -/
def mean (l : List ℚ) : ℚ := l.sum / l.length

/-- Float division, with the non-finite outcomes of a zero denominator
(NaN from 0/0, +-Inf otherwise) modelled as `none`. -/
def pdiv (a b : ℚ) : Option ℚ := if b = 0 then none else some (a / b)

/-- Embedding of `Series.pct_change(periods = n)`: entry `i` is
`value[i]/value[i-n] - 1`, undefined (`none`) for the first `n` entries. -/
def pctChange (n : ℕ) (xs : List ℚ) : List (Option ℚ) :=
  (List.range xs.length).map (fun i =>
    if i < n then none
    else (pdiv (xs.getD i 0) (xs.getD (i - n) 0)).map (fun r => r - 1))

/-- Helper for the expanding maximum: running maxima of `xs` with
accumulated peak `c`. -/
def runningMaxAux (c : ℚ) : List ℚ → List ℚ
  | [] => []
  | x :: xs => max c x :: runningMaxAux (max c x) xs

/-- Embedding of `Series.expanding().max()`: entry `i` is the maximum of
the first `i+1` values. -/
def runningMax : List ℚ → List ℚ
  | [] => []
  | v :: vs => v :: runningMaxAux v vs

/-- One drawdown entry `(v - peak)/peak`, undefined when the peak is 0. -/
def ddEntry (v p : ℚ) : Option ℚ := if p = 0 then none else some ((v - p) / p)

/-- Elementwise `(values - peak) / peak` of `_calculate_max_drawdown`. -/
def drawdownList (vs : List ℚ) : List (Option ℚ) :=
  List.zipWith ddEntry vs (runningMax vs)

/-- Minimum of a list of rationals, `none` when empty (pandas
`Series.min()` is NaN on an all-NaN or empty series and skips NaN
entries otherwise). -/
def minQ : List ℚ → Option ℚ
  | [] => none
  | x :: xs => some (xs.foldl min x)

/-- Embedding of `PerformanceAnalyzer._calculate_max_drawdown`. -/
def maxDrawdown (vs : List ℚ) : Option ℚ :=
  minQ (drawdownList vs).reduceOption

/-- Rational drawdown entries relative to an accumulated peak `c`; on a
series of positive values `drawdownList` is exactly these entries
wrapped in `some`. -/
def ddQAux (c : ℚ) : List ℚ → List ℚ
  | [] => []
  | x :: xs => (x - max c x) / max c x :: ddQAux (max c x) xs

/-- Sample variance with `ddof = 1` (the pandas `Series.std` default,
squared); only meaningful for lists of length at least 2. -/
def sampleVar (l : List ℚ) : ℚ :=
  (l.map (fun x => (x - mean l) ^ 2)).sum / ((l.length : ℚ) - 1)

/-- Embedding of pandas `Series.std()` (ddof = 1): NaN (`none`) when the
series has fewer than 2 points. -/
noncomputable def stdO (l : List ℚ) : Option ℝ :=
  if l.length < 2 then none else some (Real.sqrt (sampleVar l))

open Classical in
/-- Embedding of `PerformanceAnalyzer._calculate_sharpe_ratio` with
risk-free rate `rf` (the source default is 0.02).  The source tests
`returns.std() == 0`; a NaN standard deviation fails that test and
poisons the quotient, hence the `none` propagation. -/
noncomputable def sharpeRatioRf (rf : ℚ) (returns : List ℚ) : Option ℝ :=
  match stdO returns with
  | none => none
  | some s =>
    if s = 0 then some 0
    else some (((mean returns : ℝ) - (rf : ℝ) / 252) / s * Real.sqrt 252)

/-- Embedding of `PerformanceAnalyzer._calculate_calmar_ratio`: the
source computes `abs(max_drawdown)` and falls back to 0 unless it is
strictly positive; a NaN drawdown fails the `> 0` test, giving 0. -/
def calmarQ (annualized : ℚ) (values : List ℚ) : ℚ :=
  match maxDrawdown values with
  | none => 0
  | some m => if 0 < |m| then annualized / |m| else 0

/-- Embedding of `numpy.percentile(l, q)` with the default linear
interpolation: with the data sorted ascending and
`h = (n-1) * q/100`, the result is `s[⌊h⌋] + (h - ⌊h⌋)*(s[⌈h⌉] - s[⌊h⌋])`. -/
def percentileQ (q : ℚ) (l : List ℚ) : ℚ :=
  let s := List.insertionSort (· ≤ ·) l
  let h : ℚ := ((l.length : ℚ) - 1) * q / 100
  let lo := (Int.floor h).toNat
  let hi := (Int.ceil h).toNat
  s.getD lo 0 + (h - Int.floor h) * (s.getD hi 0 - s.getD lo 0)

/-- Biased central moment `m_k = (1/n) * sum (x - mean)^k` used by
`scipy.stats.skew` and `scipy.stats.kurtosis`. -/
def centralMoment (k : ℕ) (l : List ℚ) : ℚ :=
  (l.map (fun x => (x - mean l) ^ k)).sum / l.length

/-- Embedding of `scipy.stats.skew`: `m3 / m2^(3/2)`, NaN (`none`) when
the second moment is 0. -/
noncomputable def skewO (l : List ℚ) : Option ℝ :=
  if centralMoment 2 l = 0 then none
  else some ((centralMoment 3 l : ℝ) / Real.sqrt (centralMoment 2 l) ^ 3)

/-- Embedding of `scipy.stats.kurtosis` (Fisher definition):
`m4 / m2^2 - 3`, NaN (`none`) when the second moment is 0. -/
def kurtosisO (l : List ℚ) : Option ℚ :=
  if centralMoment 2 l = 0 then none
  else some (centralMoment 4 l / centralMoment 2 l ^ 2 - 3)

/-- A portfolio-history DataFrame: the `total_value` column, plus the
`daily_return` column when it has been assigned (`none` = absent). -/
structure Frame where
  total_value : List ℚ
  daily_return : Option (List (Option ℚ))
deriving DecidableEq

/-- Result record of `PerformanceAnalyzer.calculate_returns`.  The
fields `sharpe` and `calmar` model the source keys `sharpe_ratio` and
`calmar_ratio`. -/
structure ReturnMetrics where
  total_return : Option ℚ
  avg_daily_return : ℚ
  annualized_return : ℚ
  rolling_30d_return : Option ℚ
  rolling_90d_return : Option ℚ
  volatility : Option ℝ
  sharpe : Option ℝ
  max_drawdown : Option ℚ
  calmar : ℚ

/-- Result record of the performance-engine
`PerformanceAnalyzer.calculate_risk_metrics`. -/
structure PerfRiskMetrics where
  volatility : Option ℝ
  var_95 : ℚ
  cvar_95 : Option ℚ
  downside_deviation : Option ℝ
  beta : ℚ
  skewness : Option ℝ
  kurtosis : Option ℚ
  var_99 : ℚ
  cvar_99 : Option ℚ

/-- Embedding of `PerformanceAnalyzer.calculate_returns`.  The second
component is the state of the caller's DataFrame after the call: the
source assigns `portfolio_data['daily_return'] = ...` in place before
any further computation, so on every path past the length guard the
frame comes back with the `daily_return` column set. -/
noncomputable def calculate_returns (df : Frame) :
    Except String ReturnMetrics × Frame :=
  if df.total_value.length < 2 then
    (.error "Insufficient data for return calculation", df)
  else
    let tv := df.total_value
    let dr := pctChange 1 tv
    let df2 : Frame := ⟨tv, some dr⟩
    let returns := dr.reduceOption
    if returns = [] then
      (.error "No valid return data available", df2)
    else
      let avg := mean returns
      let annualized := (1 + avg) ^ 252 - 1
      (.ok
        { total_return := (pdiv (tv.getLastD 0) (tv.headD 0)).map (fun r => r - 1)
          avg_daily_return := avg
          annualized_return := annualized
          rolling_30d_return := (pctChange 30 tv).getLastD none
          rolling_90d_return := (pctChange 90 tv).getLastD none
          volatility := (stdO returns).map (fun s => s * Real.sqrt 252)
          sharpe := sharpeRatioRf (1 / 50) returns
          max_drawdown := maxDrawdown tv
          calmar := calmarQ annualized tv }, df2)

/-- Embedding of the performance-engine
`PerformanceAnalyzer.calculate_risk_metrics`; it only reads the frame,
so the returned frame is the input. -/
noncomputable def perf_calculate_risk_metrics (df : Frame) :
    Except String PerfRiskMetrics × Frame :=
  if df.total_value.length < 2 then
    (.error "Insufficient data for risk calculation", df)
  else
    let returns := (pctChange 1 df.total_value).reduceOption
    if returns = [] then
      (.error "No valid return data available", df)
    else
      let v95 := percentileQ 5 returns
      let v99 := percentileQ 1 returns
      let below95 := returns.filter (fun r => r ≤ v95)
      let below99 := returns.filter (fun r => r ≤ v99)
      let downside := returns.filter (fun r => r < 0)
      (.ok
        { volatility := (stdO returns).map (fun s => s * Real.sqrt 252)
          var_95 := v95
          cvar_95 := if below95 = [] then none else some (mean below95)
          downside_deviation :=
            if 0 < downside.length then
              (stdO downside).map (fun s => s * Real.sqrt 252)
            else some 0
          beta := 1
          skewness := skewO returns
          kurtosis := kurtosisO returns
          var_99 := v99
          cvar_99 := if below99 = [] then none else some (mean below99) }, df)

/-- One holding record from a portfolio snapshot (the keys the risk
engine reads).  `market_value` is `none` when the key is absent. -/
structure Holding where
  tradingsymbol : String
  market_value : Option ℚ
  quantity : ℚ
  close_price : ℚ
  pnl : ℚ
  sector : Option String
deriving DecidableEq

/-- Embedding of `RiskAnalyzer._calculate_market_value`: use the
`market_value` field when present, else `quantity * close_price`. -/
def marketValue (h : Holding) : ℚ :=
  match h.market_value with
  | some v => v
  | none => h.quantity * h.close_price

/-- Total market value `sum(market_value(h) for h in holdings)`. -/
def totalValue (H : List Holding) : ℚ := (H.map marketValue).sum

/-- Sector of a holding, `"Unknown"` when absent
(`holding.get('sector', 'Unknown')`). -/
def sectorOf (h : Holding) : String := h.sector.getD "Unknown"

/-- Distinct sector names in first-occurrence order, as Python dict
insertion order produces them. -/
def dedupKeepFirst : List String → List String
  | [] => []
  | s :: rest => s :: dedupKeepFirst (rest.filter (fun t => ¬ t = s))
termination_by l => l.length
decreasing_by
  simp only [List.length_cons]
  exact Nat.lt_succ_of_le (List.length_filter_le _ _)

/-- Aggregated market value of the holdings in sector `s`. -/
def sectorValue (H : List Holding) (s : String) : ℚ :=
  ((H.filter (fun h => sectorOf h = s)).map marketValue).sum

/-- Number of holdings in sector `s`. -/
def sectorCount (H : List Holding) (s : String) : ℕ :=
  (H.filter (fun h => sectorOf h = s)).length

/-- The denominator the sector computations use: the sum of the grouped
sector totals (`sum(data['total_value'] for data in sector_data.values())`). -/
def sectorTotal (H : List Holding) : ℚ :=
  ((dedupKeepFirst (H.map sectorOf)).map (sectorValue H)).sum

/-- Percentage share of sector `s`, with the 0 substitute when the
total is not positive. -/
def sectorPercentage (H : List Holding) (s : String) : ℚ :=
  if 0 < sectorTotal H then sectorValue H s / sectorTotal H * 100 else 0

/-- Per-sector entry (`total_value`, `count`, `percentage`). -/
structure SectorEntry where
  total_value : ℚ
  count : ℕ
  percentage : ℚ
deriving DecidableEq

/-- Sector breakdown keyed by sector name, in first-occurrence order. -/
def sectorEntries (H : List Holding) : List (String × SectorEntry) :=
  (dedupKeepFirst (H.map sectorOf)).map (fun s =>
    (s, ⟨sectorValue H s, sectorCount H s, sectorPercentage H s⟩))

/-- Embedding of `max(data['percentage'] ...) if sector_concentrations
else 0` from `RiskAnalyzer._calculate_sector_risk`. -/
def maxSectorConcentration (H : List Holding) : ℚ :=
  (((dedupKeepFirst (H.map sectorOf)).map (sectorPercentage H)).max?).getD 0

/-- Holdings sorted by market value, largest first (Python
`sorted(holdings, key=market_value, reverse=True)`; the sort is stable,
and ties cannot change any of the top-k value sums). -/
def sortedByValueDesc (H : List Holding) : List Holding :=
  List.insertionSort (fun a b => marketValue b ≤ marketValue a) H

/-- Percentage of total value held in the `k` largest holdings, with
the 0 substitute when the total is not positive. -/
def topKConcentration (k : ℕ) (H : List Holding) : ℚ :=
  if 0 < totalValue H then
    (((sortedByValueDesc H).take k).map marketValue).sum / totalValue H * 100
  else 0

/-- Top-5 concentration from `RiskAnalyzer._calculate_concentration_risk`. -/
def top5Concentration (H : List Holding) : ℚ := topKConcentration 5 H

/-- Largest single-holding share, with the 0 substitute when the total
is not positive. -/
def maxSingleConcentration (H : List Holding) : ℚ :=
  if 0 < totalValue H then
    ((H.map marketValue).max?.getD 0) / totalValue H * 100
  else 0

/-- Classification of `RiskAnalyzer._assess_concentration_risk`. -/
def assessConcentration (c : ℚ) : String :=
  if 80 < c then "High" else if 60 < c then "Medium" else "Low"

/-- Classification of `RiskAnalyzer._assess_sector_risk`. -/
def assessSector (c : ℚ) : String :=
  if 50 < c then "High" else if 30 < c then "Medium" else "Low"

/-- Classification of `RiskAnalyzer._assess_volatility_risk`. -/
def assessVolatility (v : ℚ) : String :=
  if 30 / 100 < v then "High" else if 20 / 100 < v then "Medium" else "Low"

/-- Result of `RiskAnalyzer._calculate_concentration_risk`; the source
returns an empty dict on an empty holdings list, modelled as `none`. -/
structure ConcentrationRisk where
  top_5_concentration : ℚ
  max_single_stock_concentration : ℚ
  concentration_risk_level : String
deriving DecidableEq

/-- Embedding of `RiskAnalyzer._calculate_concentration_risk`. -/
def concentrationRisk (H : List Holding) : Option ConcentrationRisk :=
  if H = [] then none
  else some
    ⟨top5Concentration H, maxSingleConcentration H,
      assessConcentration (top5Concentration H)⟩

/-- Result of `RiskAnalyzer._calculate_sector_risk` (always returned,
even for an empty holdings list). -/
structure SectorRisk where
  sector_concentrations : List (String × SectorEntry)
  max_sector_concentration : ℚ
  sector_risk_level : String
deriving DecidableEq

/-- Embedding of `RiskAnalyzer._calculate_sector_risk`. -/
def sectorRisk (H : List Holding) : SectorRisk :=
  ⟨sectorEntries H, maxSectorConcentration H,
    assessSector (maxSectorConcentration H)⟩

/-- Weighted placeholder volatility of
`RiskAnalyzer._calculate_volatility_analysis`: each holding contributes
`weight * 0.25`, with weight 0 when the total is not positive. -/
def weightedVolatility (H : List Holding) : ℚ :=
  (H.map (fun h =>
    (if 0 < totalValue H then marketValue h / totalValue H else 0) * (1 / 4))).sum

/-- Result of `RiskAnalyzer._calculate_volatility_analysis`; empty dict
(`none`) on an empty holdings list. -/
structure VolatilityAnalysis where
  portfolio_volatility : ℚ
  volatility_risk_level : String
deriving DecidableEq

/-- Embedding of `RiskAnalyzer._calculate_volatility_analysis`. -/
def volatilityAnalysis (H : List Holding) : Option VolatilityAnalysis :=
  if H = [] then none
  else some ⟨weightedVolatility H, assessVolatility (weightedVolatility H)⟩

/-- Embedding of `RiskAnalyzer._calculate_portfolio_volatility`: the
source returns the placeholder constant 0.20 for every holdings list. -/
def portfolioVolatility (_H : List Holding) : ℚ := 1 / 5

/-- Embedding of `RiskAnalyzer._calculate_portfolio_var`:
`portfolio_volatility * norm.ppf(confidence_level)`, with the external
`scipy.stats.norm.ppf` passed in as `ppf`. -/
def portfolioVar (ppf : ℚ → ℚ) (H : List Holding) (c : ℚ) : ℚ :=
  portfolioVolatility H * ppf c

/-- Embedding of `RiskAnalyzer._calculate_max_drawdown_risk`: the
placeholder constant 0.15 for every holdings list. -/
def maxDrawdownRisk (_H : List Holding) : ℚ := 3 / 20

/-- Embedding of `RiskAnalyzer._calculate_hhi`. -/
def hhi (H : List Holding) : ℚ :=
  if H = [] then 1
  else if totalValue H = 0 then 1
  else (H.map (fun h => (marketValue h / totalValue H) ^ 2)).sum

/-- Embedding of `RiskAnalyzer._calculate_effective_stocks`. -/
def effectiveStocks (H : List Holding) : ℚ :=
  if 0 < hhi H then 1 / hhi H else 0

/-- Embedding of `RiskAnalyzer._calculate_diversification_score`; note
the source recomputes HHI inline with a `total_value > 0` test (not the
`== 0` test of `_calculate_hhi`). -/
def diversificationScore (H : List Holding) : ℚ :=
  if H = [] then 0
  else
    let hhiLocal :=
      if 0 < totalValue H then
        (H.map (fun h => (marketValue h / totalValue H) ^ 2)).sum
      else 1
    max 0 (10 - hhiLocal * 10)

/-- Embedding of `RiskAnalyzer._calculate_overall_risk_score`.  For a
non-empty holdings list each sub-dict carries its key, so every
membership test in the source succeeds. -/
def overallRiskScore (H : List Holding) : ℚ :=
  if H = [] then 10
  else
    min 10
      (3 / 10 * min 10 (top5Concentration H / 10)
        + 3 / 10 * min 10 (maxSectorConcentration H / 10)
        + 2 / 5 * min 10 (weightedVolatility H * 40))

/-- Embedding of
`RiskAnalyzer._generate_diversification_recommendations`: the four
checks run in fixed order, each appending its message independently,
with a fallback message when none fired. -/
def diversificationRecommendations (H : List Holding) : List String :=
  let r1 : List String :=
    match concentrationRisk H with
    | some cr =>
      if 70 < cr.top_5_concentration then
        ["Consider reducing concentration in top 5 holdings"]
      else []
    | none => []
  let r2 : List String :=
    if 40 < (sectorRisk H).max_sector_concentration then
      ["Consider diversifying across more sectors"]
    else []
  let r3 : List String :=
    if H.length < 10 then
      ["Consider increasing the number of stocks for better diversification"]
    else []
  let r4 : List String :=
    if 1 / 4 < hhi H then
      ["Portfolio is highly concentrated - consider more diversification"]
    else []
  let rs := r1 ++ r2 ++ r3 ++ r4
  if rs = [] then ["Portfolio appears well-diversified"] else rs

/-- Result record of `RiskAnalyzer.analyze_portfolio_risk`. -/
structure RiskAnalysis where
  concentration_risk : Option ConcentrationRisk
  sector_risk : SectorRisk
  correlation_risk_level : String
  volatility_analysis : Option VolatilityAnalysis
  total_portfolio_value : ℚ
  total_pnl : ℚ
  portfolio_volatility : ℚ
  var_95 : ℚ
  var_99 : ℚ
  max_drawdown_risk : ℚ
  diversification_score : ℚ
  risk_score : ℚ
deriving DecidableEq

/-- Embedding of `RiskAnalyzer.analyze_portfolio_risk` (the holdings
list is `portfolio_data.get('holdings', [])`). -/
def analyzePortfolioRisk (ppf : ℚ → ℚ) (H : List Holding) :
    Except String RiskAnalysis :=
  if H = [] then .error "No holdings data available"
  else .ok
    ⟨concentrationRisk H, sectorRisk H, "Medium", volatilityAnalysis H,
      totalValue H, (H.map Holding.pnl).sum, portfolioVolatility H,
      portfolioVar ppf H (5 / 100), portfolioVar ppf H (1 / 100),
      maxDrawdownRisk H, diversificationScore H, overallRiskScore H⟩

/-- Stock-concentration block of `RiskAnalyzer._analyze_stock_concentration`
(empty dict, `none`, on an empty holdings list). -/
structure StockConcentration where
  top_1_concentration : ℚ
  top_3_concentration : ℚ
  top_5_concentration : ℚ
  number_of_stocks : ℕ
deriving DecidableEq

/-- Embedding of `RiskAnalyzer._analyze_stock_concentration`. -/
def stockConcentration (H : List Holding) : Option StockConcentration :=
  if H = [] then none
  else some
    ⟨topKConcentration 1 H, topKConcentration 3 H, topKConcentration 5 H,
      H.length⟩

/-- Result record of `RiskAnalyzer.analyze_diversification`.  The
market-cap block is the source's fixed placeholder triple
(large, mid, small percentages). -/
structure Diversification where
  sector_diversification : List (String × SectorEntry)
  stock_concentration : Option StockConcentration
  market_cap_percentages : ℚ × ℚ × ℚ
  herfindahl_hirschman_index : ℚ
  effective_number_of_stocks : ℚ
  diversification_recommendations : List String
deriving DecidableEq

/-- Embedding of `RiskAnalyzer.analyze_diversification`. -/
def analyzeDiversification (H : List Holding) : Except String Diversification :=
  if H = [] then .error "No holdings data available"
  else .ok
    ⟨sectorEntries H, stockConcentration H, (60, 30, 10), hhi H,
      effectiveStocks H, diversificationRecommendations H⟩

/-- Per-stock record built inside the risk-engine
`RiskAnalyzer.calculate_risk_metrics`. -/
structure StockRisk where
  symbol : String
  market_value : ℚ
  pnl : ℚ
  pnl_percentage : ℚ
  weight : ℚ
  volatility : ℚ
  var_95 : ℚ
  var_99 : ℚ
deriving DecidableEq

/-- One stock-risk record: `pnl_percentage` carries the
`if market_value > 0 else 0` guard; `weight` divides by the total
unconditionally (only reached when the total is nonzero). -/
def stockRisk (ppf : ℚ → ℚ) (total : ℚ) (h : Holding) : StockRisk :=
  ⟨h.tradingsymbol, marketValue h, h.pnl,
    if 0 < marketValue h then h.pnl / marketValue h * 100 else 0,
    marketValue h / total, 1 / 4, 1 / 4 * ppf (5 / 100), 1 / 4 * ppf (1 / 100)⟩

/-- Result record of the risk-engine `RiskAnalyzer.calculate_risk_metrics`. -/
structure HoldingsRiskMetrics where
  total_portfolio_value : ℚ
  total_pnl : ℚ
  portfolio_volatility : ℚ
  portfolio_var_95 : ℚ
  portfolio_var_99 : ℚ
  stock_risks : List StockRisk
  total_risk : ℚ
  risk_concentration_score : ℚ
  tail_var_99 : ℚ
  tail_risk_level : String
deriving DecidableEq

/-- Embedding of the risk-engine `RiskAnalyzer.calculate_risk_metrics`.
The per-holding `weight = market_value / sum(...)` has no zero guard in
the source: with a non-empty holdings list of total market value 0 the
first loop iteration raises `ZeroDivisionError`, modelled as the
corresponding `Except.error`. -/
def risk_calculate_risk_metrics (ppf : ℚ → ℚ) (H : List Holding) :
    Except String HoldingsRiskMetrics :=
  if H = [] then .error "No holdings data available"
  else if totalValue H = 0 then
    .error "ZeroDivisionError: float division by zero"
  else
    let risks := H.map (stockRisk ppf (totalValue H))
    let var99 := (risks.map (fun r => r.weight * r.var_99)).sum
    .ok
      ⟨totalValue H, (H.map Holding.pnl).sum,
        (risks.map (fun r => r.weight * r.volatility)).sum,
        (risks.map (fun r => r.weight * r.var_95)).sum,
        var99, risks,
        (risks.map (fun r => r.weight * r.volatility)).sum,
        (risks.map (fun r => r.weight ^ 2)).sum,
        var99,
        if 1 / 20 < var99 then "High"
        else if 3 / 100 < var99 then "Medium" else "Low"⟩

/-- C1: the claim that no analytics entry point mutates its input fails
on the code: `calculate_returns` assigns a `daily_return` column into
the caller's DataFrame.  On the two-point frame `[100, 110]` with no
`daily_return` column, the frame after the call differs from the frame
before it. -/
theorem c1_calculate_returns_mutates_input :
    (calculate_returns ⟨[100, 110], none⟩).2 ≠ (⟨[100, 110], none⟩ : Frame) := by
  decide

/-- C3: on the two-point series `[100, 110]` (at least 2 but fewer than
31 points) `calculate_returns` succeeds, and both rolling-window
entries come back as the pandas missing value NaN (`none`), not a
defined non-NaN sentinel. -/
theorem c3_rolling_window_nan_on_short_series :
    (calculate_returns ⟨[100, 110], none⟩).1.map
      (fun m => (m.rolling_30d_return, m.rolling_90d_return))
      = .ok (none, none) := by
  rfl

/-- C4: on a single holding of market value 0 (quantity 0), the
risk-engine `calculate_risk_metrics` reaches the unguarded
`weight = market_value / sum(...)` with a zero denominator and raises
`ZeroDivisionError` instead of returning a result with 0 substituted. -/
theorem c4_zero_total_value_raises :
    risk_calculate_risk_metrics (fun _ => 0) [⟨"X", none, 0, 100, 0, none⟩]
      = .error "ZeroDivisionError: float division by zero" := by
  unfold risk_calculate_risk_metrics
  norm_num [totalValue, marketValue]

/-- C2: with fewer than 2 time-series points both performance entry
points return the structured insufficient-data error (not an
exception), and with an empty holdings list both risk entry points
return the no-holdings error. -/
theorem c2_insufficient_data_guards (df : Frame) (H : List Holding)
    (ppf : ℚ → ℚ) (hdf : df.total_value.length < 2) (hH : H = []) :
    (calculate_returns df).1 = .error "Insufficient data for return calculation"
    ∧ (perf_calculate_risk_metrics df).1
        = .error "Insufficient data for risk calculation"
    ∧ analyzePortfolioRisk ppf H = .error "No holdings data available"
    ∧ analyzeDiversification H = .error "No holdings data available" := by
  subst hH
  refine ⟨?_, ?_, rfl, rfl⟩
  · unfold calculate_returns
    rw [if_pos hdf]
  · unfold perf_calculate_risk_metrics
    rw [if_pos hdf]

/-- Witness for C2 at the one-point frame `[100]` and the empty
holdings list. -/
theorem c2_witness :
    ((⟨[100], none⟩ : Frame).total_value.length < 2)
    ∧ (([] : List Holding) = [])
    ∧ ((calculate_returns ⟨[100], none⟩).1
          = .error "Insufficient data for return calculation"
        ∧ (perf_calculate_risk_metrics ⟨[100], none⟩).1
            = .error "Insufficient data for risk calculation"
        ∧ analyzePortfolioRisk (fun _ => 0) []
            = .error "No holdings data available"
        ∧ analyzeDiversification [] = .error "No holdings data available") :=
  ⟨by decide, rfl,
    c2_insufficient_data_guards ⟨[100], none⟩ [] (fun _ => 0) (by decide) rfl⟩

theorem zipWith_dd_eq_map_some (xs : List ℚ) : ∀ c : ℚ, 0 < c →
    (∀ x ∈ xs, 0 < x) →
    List.zipWith ddEntry xs (runningMaxAux c xs) = (ddQAux c xs).map some := by
  induction xs with
  | nil => intro c _ _; rfl
  | cons x xs ih =>
    intro c hc hx
    have hmax : (0 : ℚ) < max c x := lt_max_iff.mpr (Or.inl hc)
    simp only [runningMaxAux, ddQAux, List.zipWith_cons_cons, List.map_cons]
    rw [ddEntry, if_neg (ne_of_gt hmax)]
    exact congrArg _
      (ih (max c x) hmax (fun y hy => hx y (List.mem_cons_of_mem _ hy)))

theorem ddQAux_nonpos (xs : List ℚ) : ∀ c : ℚ, 0 < c →
    (∀ x ∈ xs, 0 < x) → ∀ q ∈ ddQAux c xs, q ≤ 0 := by
  induction xs with
  | nil => intro c _ _ q hq; simp [ddQAux] at hq
  | cons x xs ih =>
    intro c hc hx q hq
    have hmax : (0 : ℚ) < max c x := lt_max_iff.mpr (Or.inl hc)
    rw [ddQAux, List.mem_cons] at hq
    rcases hq with hq | hq
    · subst hq
      exact div_nonpos_iff.mpr (Or.inr ⟨sub_nonpos.2 (le_max_right c x), hmax.le⟩)
    · exact ih (max c x) hmax
        (fun y hy => hx y (List.mem_cons_of_mem _ hy)) q hq

theorem ddQAux_zero_iff (xs : List ℚ) : ∀ c : ℚ, 0 < c →
    (∀ x ∈ xs, 0 < x) →
    ((∀ q ∈ ddQAux c xs, q = 0) ↔ List.Chain (· ≤ ·) c xs) := by
  induction xs with
  | nil => intro c _ _; simp [ddQAux]
  | cons x xs ih =>
    intro c hc hx
    have hx0 : (0 : ℚ) < x := hx x (List.mem_cons_self _ _)
    have hxs : ∀ y ∈ xs, (0 : ℚ) < y :=
      fun y hy => hx y (List.mem_cons_of_mem _ hy)
    have hmax : (0 : ℚ) < max c x := lt_max_iff.mpr (Or.inl hc)
    rw [ddQAux, List.forall_mem_cons, List.chain_cons]
    constructor
    · rintro ⟨h0, htail⟩
      have hxc : c ≤ x := by
        rcases div_eq_zero_iff.mp h0 with h | h
        · exact max_eq_right_iff.mp (sub_eq_zero.mp h).symm
        · exact absurd h (ne_of_gt hmax)
      have hmx : max c x = x := max_eq_right hxc
      rw [hmx] at htail
      exact ⟨hxc, (ih x hx0 hxs).mp htail⟩
    · rintro ⟨hxc, hchain⟩
      have hmx : max c x = x := max_eq_right hxc
      refine ⟨?_, ?_⟩
      · rw [hmx, sub_self, zero_div]
      · rw [hmx]
        exact (ih x hx0 hxs).mpr hchain

theorem reduceOption_map_some (l : List ℚ) : (l.map some).reduceOption = l := by
  induction l with
  | nil => rfl
  | cons x xs ih => simp [List.reduceOption_cons_of_some, ih]

theorem foldl_min_le_init (l : List ℚ) : ∀ x : ℚ, l.foldl min x ≤ x := by
  induction l with
  | nil => intro x; exact le_refl x
  | cons a l ih =>
    intro x
    exact le_trans (ih (min x a)) (min_le_left x a)

theorem foldl_min_le_mem (l : List ℚ) :
    ∀ x q : ℚ, q ∈ l → l.foldl min x ≤ q := by
  induction l with
  | nil => intro x q hq; simp at hq
  | cons a l ih =>
    intro x q hq
    rcases List.mem_cons.mp hq with hq | hq
    · subst hq
      exact le_trans (foldl_min_le_init l (min x q)) (min_le_right x q)
    · exact ih (min x a) q hq

theorem le_foldl_min (l : List ℚ) : ∀ x c : ℚ, c ≤ x →
    (∀ q ∈ l, c ≤ q) → c ≤ l.foldl min x := by
  induction l with
  | nil => intro x c hcx _; exact hcx
  | cons a l ih =>
    intro x c hcx hall
    exact ih (min x a) c (le_min hcx (hall a (List.mem_cons_self _ _)))
      (fun q hq => hall q (List.mem_cons_of_mem _ hq))

theorem maxDrawdown_pos_eq (v : ℚ) (vs : List ℚ) (hv : 0 < v)
    (hpos : ∀ x ∈ vs, 0 < x) :
    maxDrawdown (v :: vs) = some ((ddQAux v vs).foldl min 0) := by
  have hdd : drawdownList (v :: vs) = some 0 :: (ddQAux v vs).map some := by
    unfold drawdownList runningMax
    rw [List.zipWith_cons_cons, zipWith_dd_eq_map_some vs v hv hpos]
    rw [ddEntry, if_neg (ne_of_gt hv), sub_self, zero_div]
  unfold maxDrawdown
  rw [hdd, List.reduceOption_cons_of_some, reduceOption_map_some]
  rfl

/-- C5 (amended): for every series of positive portfolio values, the
maximum drawdown is the minimum over `t` of
`(value[t] - running_max[t]) / running_max[t]`; it is defined (never
NaN), non-positive, and equal to 0 exactly when the series is
non-decreasing.  (The claim as frozen, which quantifies over arbitrary
value series, fails on series with negative values; see the
counterexample.) -/
theorem c5_maxDrawdown_spec (vs : List ℚ) (hne : vs ≠ [])
    (hpos : ∀ x ∈ vs, 0 < x) :
    maxDrawdown vs
      = minQ (List.zipWith (fun v p => if p = 0 then none else some ((v - p) / p))
          vs (runningMax vs)).reduceOption
    ∧ ∃ m, maxDrawdown vs = some m ∧ m ≤ 0
        ∧ (m = 0 ↔ List.Chain' (· ≤ ·) vs) := by
  refine ⟨rfl, ?_⟩
  cases vs with
  | nil => exact absurd rfl hne
  | cons v vs =>
    have hv : (0 : ℚ) < v := hpos v (List.mem_cons_self _ _)
    have htail : ∀ x ∈ vs, (0 : ℚ) < x :=
      fun x hx => hpos x (List.mem_cons_of_mem _ hx)
    refine ⟨(ddQAux v vs).foldl min 0, maxDrawdown_pos_eq v vs hv htail, ?_, ?_⟩
    · exact foldl_min_le_init _ 0
    · constructor
      · intro hm
        have hall : ∀ q ∈ ddQAux v vs, q = 0 := by
          intro q hq
          have h1 : q ≤ 0 := ddQAux_nonpos vs v hv htail q hq
          have h2 : (ddQAux v vs).foldl min 0 ≤ q := foldl_min_le_mem _ 0 q hq
          rw [hm] at h2
          exact le_antisymm h1 h2
        exact (ddQAux_zero_iff vs v hv htail).mp hall
      · intro hchain
        have hall : ∀ q ∈ ddQAux v vs, q = 0 :=
          (ddQAux_zero_iff vs v hv htail).mpr hchain
        exact le_antisymm (foldl_min_le_init _ 0)
          (le_foldl_min _ 0 0 le_rfl (fun q hq => (hall q hq).ge))

/-- Counterexample for C5 as frozen: on the (spec-permitted) negative
value series `[-1, -2]`, the maximum drawdown evaluates to 0 although
the series is strictly decreasing, so `max_drawdown == 0 iff
non-decreasing` fails for arbitrary value series. -/
theorem c5_counterexample :
    maxDrawdown [(-1 : ℚ), -2] = some 0
    ∧ ¬ List.Chain' (· ≤ ·) [(-1 : ℚ), -2] := by
  constructor
  · have h1 : max (-1 : ℚ) (-2) = -1 := max_eq_left (by norm_num)
    simp only [maxDrawdown, drawdownList, runningMax, runningMaxAux, h1,
      ddEntry, List.zipWith_cons_cons, List.zipWith_nil_right]
    norm_num [List.reduceOption, List.filterMap_cons, minQ, List.foldl, min_def]
  · intro h
    have : (-1 : ℚ) ≤ -2 := List.chain'_cons.mp h |>.1
    norm_num at this

/-- Witness for C5 (amended) at the positive series `[100, 110]`. -/
theorem c5_witness :
    (([100, 110] : List ℚ) ≠ []) ∧ (∀ x ∈ ([100, 110] : List ℚ), 0 < x)
    ∧ (maxDrawdown [100, 110]
        = minQ (List.zipWith (fun v p => if p = 0 then none else some ((v - p) / p))
            [100, 110] (runningMax [100, 110])).reduceOption
      ∧ ∃ m, maxDrawdown [100, 110] = some m ∧ m ≤ 0
          ∧ (m = 0 ↔ List.Chain' (· ≤ ·) ([100, 110] : List ℚ))) :=
  ⟨by decide, by decide, c5_maxDrawdown_spec [100, 110] (by decide) (by decide)⟩

theorem mean_const (l : List ℚ) (a : ℚ) (hnil : l ≠ [])
    (ha : ∀ x ∈ l, x = a) : mean l = a := by
  have hsum : l.sum = l.length • a := List.sum_eq_card_nsmul l a ha
  have hlp : (0 : ℚ) < (l.length : ℚ) := by
    exact_mod_cast List.length_pos.mpr hnil
  unfold mean
  rw [hsum, nsmul_eq_mul, mul_comm, mul_div_assoc, div_self hlp.ne', mul_one]

theorem sampleVar_const (l : List ℚ) (a : ℚ) (hnil : l ≠ [])
    (ha : ∀ x ∈ l, x = a) : sampleVar l = 0 := by
  have hz : ∀ y ∈ l.map (fun x => (x - mean l) ^ 2), y = 0 := by
    intro y hy
    obtain ⟨x, hx, rfl⟩ := List.mem_map.mp hy
    rw [ha x hx, mean_const l a hnil ha, sub_self]
    norm_num
  unfold sampleVar
  rw [List.sum_eq_zero hz, zero_div]

/-- C6: whenever the return series has a defined standard deviation
(`stdO rs = some s`), the Sharpe ratio is exactly 0 when `s = 0` (no
division by zero: that branch never divides) and otherwise equals
`(mean(returns) - rf/252) / s * sqrt 252` with the default annual
risk-free rate 2 percent (`rf = 1/50`); in particular a series of at
least 2 identical returns yields a Sharpe ratio of exactly 0. -/
theorem c6_sharpe_spec (rs : List ℚ) (s : ℝ) (h : stdO rs = some s) :
    (s = 0 → sharpeRatioRf (1 / 50) rs = some 0)
    ∧ (s ≠ 0 → sharpeRatioRf (1 / 50) rs
        = some (((mean rs : ℝ) - ((1 / 50 : ℚ) : ℝ) / 252) / s * Real.sqrt 252))
    ∧ (∀ a : ℚ, (∀ x ∈ rs, x = a) → sharpeRatioRf (1 / 50) rs = some 0) := by
  have key : (s = 0 → sharpeRatioRf (1 / 50) rs = some 0)
      ∧ (s ≠ 0 → sharpeRatioRf (1 / 50) rs
          = some (((mean rs : ℝ) - ((1 / 50 : ℚ) : ℝ) / 252) / s * Real.sqrt 252)) := by
    unfold sharpeRatioRf
    rw [h]
    exact ⟨fun h0 => if_pos h0, fun h0 => if_neg h0⟩
  refine ⟨key.1, key.2, ?_⟩
  intro a ha
  have hlen : ¬ rs.length < 2 := by
    intro hl
    unfold stdO at h
    rw [if_pos hl] at h
    exact Option.noConfusion h
  have hsv : s = Real.sqrt (sampleVar rs) := by
    unfold stdO at h
    rw [if_neg hlen] at h
    exact (Option.some.inj h).symm
  have hnil : rs ≠ [] := by
    intro hrs
    rw [hrs] at hlen
    exact hlen (by norm_num)
  apply key.1
  rw [hsv, sampleVar_const rs a hnil ha]
  simp

/-- Witness for C6 at the constant return series `[1, 1, 1]`. -/
theorem c6_witness :
    stdO [1, 1, 1] = some 0
    ∧ (((0 : ℝ) = 0 → sharpeRatioRf (1 / 50) [1, 1, 1] = some 0)
      ∧ ((0 : ℝ) ≠ 0 → sharpeRatioRf (1 / 50) [1, 1, 1]
          = some (((mean [1, 1, 1] : ℝ) - ((1 / 50 : ℚ) : ℝ) / 252) / 0
              * Real.sqrt 252))
      ∧ (∀ a : ℚ, (∀ x ∈ ([1, 1, 1] : List ℚ), x = a)
          → sharpeRatioRf (1 / 50) [1, 1, 1] = some 0)) := by
  have pf : stdO [1, 1, 1] = some 0 := by
    unfold stdO
    rw [if_neg (by norm_num)]
    rw [sampleVar_const [1, 1, 1] 1 (by decide) (by decide)]
    simp
  exact ⟨pf, c6_sharpe_spec [1, 1, 1] 0 pf⟩

theorem sum_map_div {α : Type _} (l : List α) (f : α → ℚ) (c : ℚ) :
    (l.map (fun x => f x / c)).sum = (l.map f).sum / c := by
  induction l with
  | nil => simp
  | cons x xs ih => simp [ih, add_div]

theorem hhi_pos (G : List Holding) : 0 < hhi G := by
  unfold hhi
  by_cases hG : G = []
  · rw [if_pos hG]
    norm_num
  · rw [if_neg hG]
    by_cases hT : totalValue G = 0
    · rw [if_pos hT]
      norm_num
    · rw [if_neg hT]
      have hex : ∃ g ∈ G, marketValue g ≠ 0 := by
        by_contra hall
        push_neg at hall
        apply hT
        unfold totalValue
        apply List.sum_eq_zero
        intro x hx
        obtain ⟨g, hg, rfl⟩ := List.mem_map.mp hx
        exact hall g hg
      obtain ⟨g, hg, hgne⟩ := hex
      have hterm : 0 < (marketValue g / totalValue G) ^ 2 :=
        pow_two_pos_of_ne_zero (div_ne_zero hgne hT)
      have hmem : (marketValue g / totalValue G) ^ 2
          ∈ G.map (fun h => (marketValue h / totalValue G) ^ 2) :=
        List.mem_map_of_mem _ hg
      refine lt_of_lt_of_le hterm (List.single_le_sum ?_ _ hmem)
      intro x hx
      obtain ⟨g2, _, rfl⟩ := List.mem_map.mp hx
      exact sq_nonneg _

theorem marketValue_le_total (H : List Holding) (g : Holding) (hg : g ∈ H)
    (hnn : ∀ h ∈ H, 0 ≤ marketValue h) : marketValue g ≤ totalValue H := by
  refine List.single_le_sum ?_ _ (List.mem_map_of_mem marketValue hg)
  intro x hx
  obtain ⟨g2, hg2, rfl⟩ := List.mem_map.mp hx
  exact hnn g2 hg2

theorem hhi_le_one (H : List Holding) (hne : H ≠ [])
    (hnn : ∀ h ∈ H, 0 ≤ marketValue h) (hpos : 0 < totalValue H) :
    hhi H ≤ 1 := by
  unfold hhi
  rw [if_neg hne, if_neg hpos.ne']
  have hstep : (H.map (fun h => (marketValue h / totalValue H) ^ 2)).sum
      ≤ (H.map (fun h => marketValue h / totalValue H)).sum := by
    apply List.sum_le_sum
    intro g hg
    have h0 : 0 ≤ marketValue g / totalValue H :=
      div_nonneg (hnn g hg) hpos.le
    have h1 : marketValue g / totalValue H ≤ 1 :=
      (div_le_one hpos).mpr (marketValue_le_total H g hg hnn)
    rw [sq]
    exact mul_le_of_le_one_left h0 h1
  refine le_trans hstep ?_
  rw [sum_map_div H marketValue (totalValue H)]
  show totalValue H / totalValue H ≤ 1
  rw [div_self hpos.ne']

/-- C7: for every non-empty holdings list (with the data-model
constraint that market values are non-negative) of positive total
value, the HHI equals the sum of the squared weights
`market_value_i / total_value` and lies in `(0, 1]`; it equals 1 when
the holdings list is empty or the total value is 0; the effective
number of stocks always equals `1 / hhi` (the fallback 0 branch for
`hhi = 0` is unreachable since `hhi` is always positive). -/
theorem c7_hhi_spec (H : List Holding) (hne : H ≠ [])
    (hnn : ∀ h ∈ H, 0 ≤ marketValue h) (hpos : 0 < totalValue H) :
    hhi H = (H.map (fun h => (marketValue h / totalValue H) ^ 2)).sum
    ∧ 0 < hhi H ∧ hhi H ≤ 1
    ∧ hhi ([] : List Holding) = 1
    ∧ (∀ G : List Holding, totalValue G = 0 → hhi G = 1)
    ∧ (∀ G : List Holding, 0 < hhi G)
    ∧ (∀ G : List Holding, effectiveStocks G = 1 / hhi G) := by
  refine ⟨?_, hhi_pos H, hhi_le_one H hne hnn hpos, rfl, ?_, hhi_pos, ?_⟩
  · unfold hhi
    rw [if_neg hne, if_neg hpos.ne']
  · intro G hG0
    unfold hhi
    by_cases hG : G = []
    · rw [if_pos hG]
    · rw [if_neg hG, if_pos hG0]
  · intro G
    unfold effectiveStocks
    rw [if_pos (hhi_pos G)]

/-- Witness for C7 at the single holding of market value 100. -/
theorem c7_witness :
    (([⟨"A", some 100, 0, 0, 0, none⟩] : List Holding) ≠ [])
    ∧ (∀ h ∈ ([⟨"A", some 100, 0, 0, 0, none⟩] : List Holding),
        0 ≤ marketValue h)
    ∧ (0 < totalValue [⟨"A", some 100, 0, 0, 0, none⟩])
    ∧ (hhi [⟨"A", some 100, 0, 0, 0, none⟩]
          = (([⟨"A", some 100, 0, 0, 0, none⟩] : List Holding).map
              (fun h => (marketValue h
                / totalValue [⟨"A", some 100, 0, 0, 0, none⟩]) ^ 2)).sum
      ∧ 0 < hhi [⟨"A", some 100, 0, 0, 0, none⟩]
      ∧ hhi [⟨"A", some 100, 0, 0, 0, none⟩] ≤ 1
      ∧ hhi ([] : List Holding) = 1
      ∧ (∀ G : List Holding, totalValue G = 0 → hhi G = 1)
      ∧ (∀ G : List Holding, 0 < hhi G)
      ∧ (∀ G : List Holding, effectiveStocks G = 1 / hhi G)) :=
  ⟨by decide, by decide, by norm_num [totalValue, marketValue],
    c7_hhi_spec [⟨"A", some 100, 0, 0, 0, none⟩]
      (by decide) (by decide) (by norm_num [totalValue, marketValue])⟩

theorem diversificationScore_eq (G : List Holding) (hne : G ≠ [])
    (hnn : ∀ h ∈ G, 0 ≤ marketValue h) :
    diversificationScore G = max 0 (10 - hhi G * 10) := by
  unfold diversificationScore hhi
  rw [if_neg hne, if_neg hne]
  by_cases hT : 0 < totalValue G
  · rw [if_pos hT, if_neg hT.ne']
  · have hT0 : totalValue G = 0 := by
      refine le_antisymm (not_lt.mp hT) ?_
      unfold totalValue
      apply List.sum_nonneg
      intro x hx
      obtain ⟨g, hg, rfl⟩ := List.mem_map.mp hx
      exact hnn g hg
    rw [if_neg hT, if_pos hT0]

theorem diversificationScore_bounds (G : List Holding) :
    0 ≤ diversificationScore G ∧ diversificationScore G ≤ 10 := by
  unfold diversificationScore
  by_cases hG : G = []
  · rw [if_pos hG]
    norm_num
  · rw [if_neg hG]
    have hl0 : 0 ≤ (if 0 < totalValue G then
        (G.map (fun h => (marketValue h / totalValue G) ^ 2)).sum else 1) := by
      by_cases hT : 0 < totalValue G
      · rw [if_pos hT]
        apply List.sum_nonneg
        intro x hx
        obtain ⟨g, _, rfl⟩ := List.mem_map.mp hx
        exact sq_nonneg _
      · rw [if_neg hT]
        norm_num
    constructor
    · exact le_max_left 0 _
    · refine max_le (by norm_num) (by nlinarith)

/-- C8: for every non-empty holdings list (with non-negative market
values, per the data model) the diversification score equals
`max(0, 10 - hhi*10)`; it always lies in `[0, 10]`; it is monotonically
non-increasing as the HHI increases; and a single-holding portfolio
scores exactly 0. -/
theorem c8_diversification_score_spec (H : List Holding) (hne : H ≠ [])
    (hnn : ∀ h ∈ H, 0 ≤ marketValue h) :
    diversificationScore H = max 0 (10 - hhi H * 10)
    ∧ (∀ G : List Holding,
        0 ≤ diversificationScore G ∧ diversificationScore G ≤ 10)
    ∧ (∀ G1 G2 : List Holding, G1 ≠ [] → G2 ≠ [] →
        (∀ h ∈ G1, 0 ≤ marketValue h) → (∀ h ∈ G2, 0 ≤ marketValue h) →
        hhi G1 ≤ hhi G2 →
        diversificationScore G2 ≤ diversificationScore G1)
    ∧ (∀ h : Holding, diversificationScore [h] = 0) := by
  refine ⟨diversificationScore_eq H hne hnn, diversificationScore_bounds, ?_, ?_⟩
  · intro G1 G2 h1 h2 hn1 hn2 hle
    rw [diversificationScore_eq G1 h1 hn1, diversificationScore_eq G2 h2 hn2]
    exact max_le_max le_rfl (by linarith)
  · intro h
    unfold diversificationScore
    rw [if_neg (by simp)]
    have htv : totalValue [h] = marketValue h := by
      unfold totalValue
      simp
    by_cases hT : 0 < totalValue [h]
    · rw [if_pos hT]
      rw [htv] at hT ⊢
      simp only [List.map_cons, List.map_nil, List.sum_cons, List.sum_nil]
      rw [div_self hT.ne']
      norm_num
    · rw [if_neg hT]
      norm_num

/-- Witness for C8 at a two-holding portfolio. -/
theorem c8_witness :
    (([⟨"A", some 100, 0, 0, 0, none⟩, ⟨"B", some 300, 0, 0, 0, none⟩]
        : List Holding) ≠ [])
    ∧ (∀ h ∈ ([⟨"A", some 100, 0, 0, 0, none⟩, ⟨"B", some 300, 0, 0, 0, none⟩]
        : List Holding), 0 ≤ marketValue h)
    ∧ (diversificationScore
          [⟨"A", some 100, 0, 0, 0, none⟩, ⟨"B", some 300, 0, 0, 0, none⟩]
        = max 0 (10 - hhi
            [⟨"A", some 100, 0, 0, 0, none⟩, ⟨"B", some 300, 0, 0, 0, none⟩] * 10)
      ∧ (∀ G : List Holding,
          0 ≤ diversificationScore G ∧ diversificationScore G ≤ 10)
      ∧ (∀ G1 G2 : List Holding, G1 ≠ [] → G2 ≠ [] →
          (∀ h ∈ G1, 0 ≤ marketValue h) → (∀ h ∈ G2, 0 ≤ marketValue h) →
          hhi G1 ≤ hhi G2 →
          diversificationScore G2 ≤ diversificationScore G1)
      ∧ (∀ h : Holding, diversificationScore [h] = 0)) :=
  ⟨by decide, by decide,
    c8_diversification_score_spec
      [⟨"A", some 100, 0, 0, 0, none⟩, ⟨"B", some 300, 0, 0, 0, none⟩]
      (by decide) (by decide)⟩

/-- C9: for every non-empty holdings list the recommendation list is
built by independently evaluating, in the fixed order
concentration, sector, count, HHI, the four trigger conditions
(top-5 concentration > 70, max sector concentration > 40, fewer than 10
holdings, HHI > 0.25), concatenating every triggered message; when no
condition triggers the result is exactly the single well-diversified
message. -/
theorem c9_recommendations_spec (H : List Holding) (hne : H ≠ []) :
    ((70 < top5Concentration H ∨ 40 < maxSectorConcentration H
        ∨ H.length < 10 ∨ 1 / 4 < hhi H) →
      diversificationRecommendations H
        = (if 70 < top5Concentration H then
            ["Consider reducing concentration in top 5 holdings"] else [])
          ++ (if 40 < maxSectorConcentration H then
            ["Consider diversifying across more sectors"] else [])
          ++ (if H.length < 10 then
            ["Consider increasing the number of stocks for better diversification"]
            else [])
          ++ (if 1 / 4 < hhi H then
            ["Portfolio is highly concentrated - consider more diversification"]
            else []))
    ∧ (¬ 70 < top5Concentration H → ¬ 40 < maxSectorConcentration H →
        ¬ H.length < 10 → ¬ 1 / 4 < hhi H →
      diversificationRecommendations H
        = ["Portfolio appears well-diversified"]) := by
  have heq0 : diversificationRecommendations H
      = (if ((if 70 < top5Concentration H then
            ["Consider reducing concentration in top 5 holdings"] else [])
          ++ (if 40 < maxSectorConcentration H then
            ["Consider diversifying across more sectors"] else [])
          ++ (if H.length < 10 then
            ["Consider increasing the number of stocks for better diversification"]
            else [])
          ++ (if 1 / 4 < hhi H then
            ["Portfolio is highly concentrated - consider more diversification"]
            else []) : List String) = []
        then ["Portfolio appears well-diversified"]
        else (if 70 < top5Concentration H then
            ["Consider reducing concentration in top 5 holdings"] else [])
          ++ (if 40 < maxSectorConcentration H then
            ["Consider diversifying across more sectors"] else [])
          ++ (if H.length < 10 then
            ["Consider increasing the number of stocks for better diversification"]
            else [])
          ++ (if 1 / 4 < hhi H then
            ["Portfolio is highly concentrated - consider more diversification"]
            else [])) := by
    unfold diversificationRecommendations concentrationRisk
    rw [if_neg hne]
    rfl
  constructor
  · intro hdisj
    rw [heq0]
    apply if_neg
    rcases hdisj with h | h | h | h <;>
      rw [if_pos h] <;> simp [List.append_eq_nil]
  · intro h1 h2 h3 h4
    rw [heq0, if_neg h1, if_neg h2, if_neg h3, if_neg h4]
    simp

/-- Witness for C9 at a single-holding portfolio (which triggers the
concentration, count and HHI conditions). -/
theorem c9_witness :
    (([⟨"A", some 100, 0, 0, 0, none⟩] : List Holding) ≠ [])
    ∧ (((70 < top5Concentration [⟨"A", some 100, 0, 0, 0, none⟩]
          ∨ 40 < maxSectorConcentration [⟨"A", some 100, 0, 0, 0, none⟩]
          ∨ ([⟨"A", some 100, 0, 0, 0, none⟩] : List Holding).length < 10
          ∨ 1 / 4 < hhi [⟨"A", some 100, 0, 0, 0, none⟩]) →
        diversificationRecommendations [⟨"A", some 100, 0, 0, 0, none⟩]
          = (if 70 < top5Concentration [⟨"A", some 100, 0, 0, 0, none⟩] then
              ["Consider reducing concentration in top 5 holdings"] else [])
            ++ (if 40 < maxSectorConcentration [⟨"A", some 100, 0, 0, 0, none⟩] then
              ["Consider diversifying across more sectors"] else [])
            ++ (if ([⟨"A", some 100, 0, 0, 0, none⟩] : List Holding).length < 10 then
              ["Consider increasing the number of stocks for better diversification"]
              else [])
            ++ (if 1 / 4 < hhi [⟨"A", some 100, 0, 0, 0, none⟩] then
              ["Portfolio is highly concentrated - consider more diversification"]
              else []))
      ∧ (¬ 70 < top5Concentration [⟨"A", some 100, 0, 0, 0, none⟩] →
          ¬ 40 < maxSectorConcentration [⟨"A", some 100, 0, 0, 0, none⟩] →
          ¬ ([⟨"A", some 100, 0, 0, 0, none⟩] : List Holding).length < 10 →
          ¬ 1 / 4 < hhi [⟨"A", some 100, 0, 0, 0, none⟩] →
        diversificationRecommendations [⟨"A", some 100, 0, 0, 0, none⟩]
          = ["Portfolio appears well-diversified"])) :=
  ⟨by decide, c9_recommendations_spec [⟨"A", some 100, 0, 0, 0, none⟩] (by decide)⟩

/-- C10: for every two non-empty holdings lists (and any quantile
function for the external `norm.ppf`), `analyze_portfolio_risk` returns
identical `portfolio_volatility` (always 0.20), `var_95`, `var_99` and
`max_drawdown_risk` (always 0.15) entries: these top-level outputs do
not depend on the holdings at all. -/
theorem c10_constant_risk_outputs (ppf : ℚ → ℚ) (H1 H2 : List Holding)
    (h1 : H1 ≠ []) (h2 : H2 ≠ []) :
    ∃ r1 r2 : RiskAnalysis,
      analyzePortfolioRisk ppf H1 = .ok r1
      ∧ analyzePortfolioRisk ppf H2 = .ok r2
      ∧ r1.portfolio_volatility = r2.portfolio_volatility
      ∧ r1.portfolio_volatility = 1 / 5
      ∧ r1.var_95 = r2.var_95
      ∧ r1.var_99 = r2.var_99
      ∧ r1.max_drawdown_risk = r2.max_drawdown_risk
      ∧ r1.max_drawdown_risk = 3 / 20 := by
  have e1 : analyzePortfolioRisk ppf H1 = .ok
      ⟨concentrationRisk H1, sectorRisk H1, "Medium", volatilityAnalysis H1,
        totalValue H1, (H1.map Holding.pnl).sum, portfolioVolatility H1,
        portfolioVar ppf H1 (5 / 100), portfolioVar ppf H1 (1 / 100),
        maxDrawdownRisk H1, diversificationScore H1, overallRiskScore H1⟩ := by
    unfold analyzePortfolioRisk
    rw [if_neg h1]
  have e2 : analyzePortfolioRisk ppf H2 = .ok
      ⟨concentrationRisk H2, sectorRisk H2, "Medium", volatilityAnalysis H2,
        totalValue H2, (H2.map Holding.pnl).sum, portfolioVolatility H2,
        portfolioVar ppf H2 (5 / 100), portfolioVar ppf H2 (1 / 100),
        maxDrawdownRisk H2, diversificationScore H2, overallRiskScore H2⟩ := by
    unfold analyzePortfolioRisk
    rw [if_neg h2]
  exact ⟨_, _, e1, e2, rfl, rfl, rfl, rfl, rfl, rfl⟩

/-- Witness for C10 at two different single-holding portfolios with the
standard-normal quantile stubbed to 0. -/
theorem c10_witness :
    (([⟨"A", some 100, 0, 0, 0, none⟩] : List Holding) ≠ [])
    ∧ (([⟨"B", some 999, 0, 0, 7, some "IT"⟩] : List Holding) ≠ [])
    ∧ (∃ r1 r2 : RiskAnalysis,
        analyzePortfolioRisk (fun _ => 0) [⟨"A", some 100, 0, 0, 0, none⟩] = .ok r1
        ∧ analyzePortfolioRisk (fun _ => 0) [⟨"B", some 999, 0, 0, 7, some "IT"⟩] = .ok r2
        ∧ r1.portfolio_volatility = r2.portfolio_volatility
        ∧ r1.portfolio_volatility = 1 / 5
        ∧ r1.var_95 = r2.var_95
        ∧ r1.var_99 = r2.var_99
        ∧ r1.max_drawdown_risk = r2.max_drawdown_risk
        ∧ r1.max_drawdown_risk = 3 / 20) :=
  ⟨by decide, by decide,
    c10_constant_risk_outputs (fun _ => 0)
      [⟨"A", some 100, 0, 0, 0, none⟩] [⟨"B", some 999, 0, 0, 7, some "IT"⟩]
      (by decide) (by decide)⟩

end ZerodhaWise
